import Mathlib

/-
  Verification of the gats_ussd platform against its natural-language
  specification.

  The repository ships the PostgreSQL schema and utility functions
  (tables users, ussd_sessions, ussd_logs, ussd_services; plpgsql
  function end_inactive_sessions), the seed menu definitions, and the
  React admin pages (Sessions.js with handleEndSession, Services.js
  with handleSubmit).  The FastAPI session engine (directory api/) is
  referenced by the build files but its sources are not in the
  repository; where a claim depends on it, the relevant operation is
  modelled from the specification and marked as such in its doc
  comment.

  Timestamps are modelled as integers (one unit = one minute, the unit
  used by end_inactive_sessions(timeout_minutes)).
-/

set_option maxHeartbeats 1000000

namespace GatsUssd

/-- A row of the ussd_sessions table (schema in db/init, lines 213-224
of the concatenated source).  `invalid_count` is the invalid-input
counter of the spec data model; the schema has no dedicated column for
it, it travels in the `session_data` JSONB bag, which we model as an
association list plus this counter. -/
structure Session where
  session_id : String
  user_id : Nat
  service_code : String
  current_menu : String
  session_data : List (String × String)
  invalid_count : Nat
  started_at : Int
  last_activity : Int
  ended_at : Option Int
  is_active : Bool
deriving DecidableEq, Repr

/-- One option of a menu node: input code, display text, and a `next`
target that is either another node identifier or a terminal action
identifier (seed data, App.js lines 283-340). -/
structure MOption where
  code : String
  text : String
  next : String
deriving DecidableEq, Repr

/-- A menu node: title plus ordered option list. -/
structure MenuNode where
  title : String
  options : List MOption
deriving DecidableEq, Repr

/-- A parsed menu_structure JSONB value: mapping of node id to node. -/
abbrev MenuStructure := List (String × MenuNode)

/-- Look a node up by id in a menu structure. -/
def lookupNode (m : MenuStructure) (nodeId : String) : Option MenuNode :=
  match m.find? (fun p => p.1 = nodeId) with
  | some p => some p.2
  | none => none

/-- Seed menu of service *123# (App.js lines 286-304): nodes main and
services. -/
def seedMenuMain : MenuStructure :=
  [ ("main",
     { title := "Menu Principal"
       options :=
         [ { code := "1", text := "Consultation de solde", next := "balance" }
         , { code := "2", text := "Inscription aux services", next := "services" }
         , { code := "3", text := "Suivi de commande", next := "order_tracking" }
         , { code := "4", text := "Sondages", next := "survey" } ] })
  , ("services",
     { title := "Services disponibles"
       options :=
         [ { code := "1", text := "Service A", next := "service_a" }
         , { code := "2", text := "Service B", next := "service_b" }
         , { code := "3", text := "Service C", next := "service_c" } ] }) ]

/-! ## Session Reaper: end_inactive_sessions (App.js lines 385-401)

The plpgsql function runs
  UPDATE ussd_sessions SET is_active = FALSE, ended_at = NOW()
  WHERE is_active = TRUE AND last_activity < NOW() - timeout_minutes minutes
and returns the affected row count. -/

/-- The WHERE predicate of the UPDATE: active and stale at cutoff
`now - timeout`. -/
def stalePred (now timeout : Int) (s : Session) : Bool :=
  s.is_active && decide (s.last_activity < now - timeout)

/-- Effect of the UPDATE on one matching row. -/
def endRow (now : Int) (s : Session) : Session :=
  { s with is_active := false, ended_at := some now }

/-- end_inactive_sessions(timeout_minutes): conditionally end every
stale active session, returning the new table contents and the
affected row count (GET DIAGNOSTICS ROW_COUNT). -/
def end_inactive_sessions (now timeout : Int) : List Session → List Session × Nat
  | [] => ([], 0)
  | s :: rest =>
      let (rest', n) := end_inactive_sessions now timeout rest
      if stalePred now timeout s then (endRow now s :: rest', n + 1)
      else (s :: rest', n)

/-- Number of active sessions in a table state. -/
def countActive (l : List Session) : Nat :=
  l.countP (fun s => s.is_active)

/-- Per-row effect of one UPDATE pass. -/
def sweepRow (now timeout : Int) (s : Session) : Session :=
  if stalePred now timeout s then endRow now s else s

lemma end_inactive_eq (now timeout : Int) (l : List Session) :
    end_inactive_sessions now timeout l
      = (l.map (sweepRow now timeout), l.countP (stalePred now timeout)) := by
  induction l with
  | nil => rfl
  | cons s rest ih =>
      simp only [end_inactive_sessions, ih, List.map_cons, List.countP_cons, sweepRow]
      by_cases hs : stalePred now timeout s <;> simp [hs]

lemma stalePred_iff (now timeout : Int) (s : Session) :
    stalePred now timeout s = true
      ↔ (s.is_active = true ∧ s.last_activity < now - timeout) := by
  simp [stalePred]

lemma stalePred_sweepRow (now timeout : Int) (s : Session) :
    stalePred now timeout (sweepRow now timeout s) = false := by
  by_cases hs : stalePred now timeout s = true
  · rw [sweepRow, if_pos hs]
    simp [stalePred, endRow]
  · rw [sweepRow, if_neg hs]
    simp only [Bool.not_eq_true] at hs
    exact hs

lemma sweepRow_idem (now timeout : Int) (s : Session) :
    sweepRow now timeout (sweepRow now timeout s) = sweepRow now timeout s := by
  rw [sweepRow, stalePred_sweepRow]
  simp

lemma countActive_sweep (now timeout : Int) (l : List Session) :
    countActive (l.map (sweepRow now timeout)) + l.countP (stalePred now timeout)
      = countActive l := by
  induction l with
  | nil => rfl
  | cons s rest ih =>
      simp only [countActive, List.map_cons, List.countP_cons] at ih ⊢
      by_cases hs : stalePred now timeout s = true
      · have hact : s.is_active = true := ((stalePred_iff now timeout s).1 hs).1
        rw [sweepRow, if_pos hs]
        simp [endRow, hs, hact, List.countP_map] at ih ⊢
        omega
      · rw [sweepRow, if_neg hs]
        simp only [Bool.not_eq_true] at hs
        simp [hs, List.countP_map] at ih ⊢
        omega

/-- C1: the reaper transitions to inactive (ended_at set to the sweep
time) exactly the sessions that are active and stale at the cutoff;
every other session is left completely unchanged. -/
theorem reaper_transitions_exactly_stale (now timeout : Int) (l : List Session) :
    (end_inactive_sessions now timeout l).1
      = l.map (fun s =>
          if s.is_active = true ∧ s.last_activity < now - timeout
          then { s with is_active := false, ended_at := some now }
          else s) := by
  rw [end_inactive_eq]
  refine List.map_congr_left (fun s _ => ?_)
  by_cases hs : stalePred now timeout s
  · rw [sweepRow, if_pos hs, if_pos ((stalePred_iff now timeout s).1 hs)]
    rfl
  · rw [sweepRow, if_neg hs,
      if_neg (fun hc => hs ((stalePred_iff now timeout s).2 hc))]

/-- C8: the reaper sweep is idempotent for a fixed cutoff: a second
application right after the first changes no session and affects zero
rows. -/
theorem reaper_idempotent (now timeout : Int) (l : List Session) :
    end_inactive_sessions now timeout ((end_inactive_sessions now timeout l).1)
      = ((end_inactive_sessions now timeout l).1, 0) := by
  rw [end_inactive_eq, end_inactive_eq]
  simp only [List.map_map, List.countP_map, Prod.mk.injEq]
  constructor
  · refine List.map_congr_left (fun s _ => ?_)
    exact sweepRow_idem now timeout s
  · rw [List.countP_eq_zero]
    intro s _
    simp [Function.comp, stalePred_sweepRow]

/-- C10: end_inactive_sessions returns exactly the number of sessions
it transitioned from active to inactive: the return value plus the
active count afterwards equals the active count before, and the return
value is 0 when no session satisfies the staleness predicate. -/
theorem reaper_returns_ended_count (now timeout : Int) (l : List Session) :
    countActive (end_inactive_sessions now timeout l).1
        + (end_inactive_sessions now timeout l).2 = countActive l
    ∧ (end_inactive_sessions now timeout l).2
        = countActive l - countActive (end_inactive_sessions now timeout l).1
    ∧ ((∀ s ∈ l, ¬ (s.is_active = true ∧ s.last_activity < now - timeout)) →
        (end_inactive_sessions now timeout l).2 = 0) := by
  have h := countActive_sweep now timeout l
  rw [end_inactive_eq]
  dsimp only
  refine ⟨h, by omega, ?_⟩
  intro hnone
  rw [List.countP_eq_zero]
  intro s hsl
  intro hc
  exact hnone s hsl ((stalePred_iff now timeout s).1 hc)

/-- A fresh active session used to instantiate reaper theorems. -/
def demoFresh : Session :=
  { session_id := "sess_demo", user_id := 1, service_code := "*123#"
    current_menu := "main", session_data := [], invalid_count := 0
    started_at := 95, last_activity := 99, ended_at := none, is_active := true }

theorem reaper_returns_ended_count_witness :
    (end_inactive_sessions 100 3 [demoFresh]).2 = 0 :=
  (reaper_returns_ended_count 100 3 [demoFresh]).2.2 (by decide)

/-! ## Menu publish path: handleSubmit (Services.js lines 175-241)

handleSubmit parses formData.menu_structure with JSON.parse; a parse
failure aborts the submission with an error snackbar, and a parse
success stores the service with the parsed structure.  No structural
check on the menu graph is performed. -/

/-- A row of ussd_services as held in the admin catalog list. -/
structure ServiceRec where
  id : Nat
  code : String
  name : String
  description : String
  menu_structure : MenuStructure
  is_active : Bool
deriving DecidableEq, Repr

/-- The submission form of Services.js.  The menu_structure text field
is modelled by its JSON.parse result: none when the text is not valid
JSON, some of the parsed structure otherwise. -/
structure ServiceForm where
  code : String
  name : String
  description : String
  menu_structure : Option MenuStructure
  is_active : Bool
deriving DecidableEq, Repr

/-- The record appended by handleSubmit in add mode: id is
services.length + 1, timestamps aside. -/
def newServiceRec (services : List ServiceRec) (fd : ServiceForm)
    (m : MenuStructure) : ServiceRec :=
  { id := services.length + 1, code := fd.code, name := fd.name
    description := fd.description, menu_structure := m, is_active := fd.is_active }

/-- handleSubmit in add mode (Services.js): reject when JSON.parse
fails, otherwise append the new service.  Returns the updated catalog
list and whether the submission was accepted. -/
def handleSubmitAdd (services : List ServiceRec) (fd : ServiceForm) :
    List ServiceRec × Bool :=
  match fd.menu_structure with
  | none => (services, false)
  | some m => (services ++ [newServiceRec services fd m], true)

/-- True when a list of option codes has no duplicate. -/
def dupFreeCodes : List String → Bool
  | [] => true
  | c :: cs => (!cs.contains c) && dupFreeCodes cs

/-- Written from the spec (sections 4.2 and 9), for comparison with
the code: every next must reference a known node id or a known action
identifier, and duplicate option codes within one node are rejected. -/
def specValidMenu (knownActions : List String) (m : MenuStructure) : Bool :=
  m.all (fun p =>
    dupFreeCodes (p.2.options.map (fun o => o.code))
      && p.2.options.all (fun o =>
           m.any (fun q => q.1 == o.next) || knownActions.contains o.next))

/-- A menu definition with a duplicate option code and unknown next
targets within its one node. -/
def badMenu : MenuStructure :=
  [ ("main",
     { title := "Menu"
       options :=
         [ { code := "1", text := "A", next := "missing_a" }
         , { code := "1", text := "B", next := "missing_b" } ] }) ]

/-- The submission carrying badMenu as valid JSON text. -/
def badForm : ServiceForm :=
  { code := "*999#", name := "Bad", description := ""
    menu_structure := some badMenu, is_active := true }

/-- C4 counterexample: handleSubmit accepts into the catalog a menu
definition that has a duplicate option code within one node and whose
next targets reference no known node, so structural violations are not
rejected at publish time. -/
theorem catalog_validation_counterexample :
    (handleSubmitAdd [] badForm).2 = true
      ∧ ((handleSubmitAdd [] badForm).1.map (fun r => r.menu_structure)) = [badMenu]
      ∧ specValidMenu [] badMenu = false := by
  refine ⟨rfl, rfl, ?_⟩
  decide

/-- C4 amended: at publish time handleSubmit validates only JSON
well-formedness: a submission whose menu_structure does not parse is
rejected with the catalog unchanged, and every successfully parsed
structure is appended to the catalog regardless of duplicate codes or
unknown next targets. -/
theorem handleSubmit_validates_json_only (services : List ServiceRec)
    (fd : ServiceForm) :
    (fd.menu_structure = none → handleSubmitAdd services fd = (services, false))
    ∧ (∀ m, fd.menu_structure = some m →
        handleSubmitAdd services fd
          = (services ++ [newServiceRec services fd m], true)) := by
  constructor
  · intro h
    simp [handleSubmitAdd, h]
  · intro m h
    simp [handleSubmitAdd, h]

theorem handleSubmit_validates_json_only_witness :
    handleSubmitAdd [] badForm = ([newServiceRec [] badForm badMenu], true) :=
  (handleSubmit_validates_json_only [] badForm).2 badMenu rfl

/-! ## Session store transition system

The ussd_sessions table evolves through: row creation (INSERT with the
UNIQUE constraint on session_id and the schema defaults), engine turn
updates and engine termination (modelled from the spec, the FastAPI
engine not being in the repository), admin termination (handleEndSession
in Sessions.js), and the reaper sweep (end_inactive_sessions).  The
database clock NOW() is a monotone field of the store state. -/

/-- Store state: table contents plus the database clock. -/
structure Store where
  sessions : List Session
  now : Int
deriving Repr

/-- The empty store at clock zero. -/
def initStore : Store := { sessions := [], now := 0 }

/-- INSERT INTO ussd_sessions guarded by the UNIQUE constraint on
session_id: a duplicate insert leaves the table unchanged (the second
creator then loads the winner); defaults from the schema are
started_at = last_activity = NOW(), ended_at NULL, is_active TRUE, and
the engine positions a fresh session at the root node main. -/
def createSession (st : Store) (sid : String) (uid : Nat) (svc : String) :
    List Session :=
  if st.sessions.any (fun s => s.session_id == sid) then st.sessions
  else st.sessions ++
    [{ session_id := sid, user_id := uid, service_code := svc
       current_menu := "main", session_data := [], invalid_count := 0
       started_at := st.now, last_activity := st.now
       ended_at := none, is_active := true }]

/-- Modelled from the spec: one engine turn on an active session
(section 4.1 step 6) updates the menu position, the data bag, the
invalid-input counter and last_activity; the FastAPI engine is not in
the repository. -/
def turnUpdate (st : Store) (sid menu : String)
    (dat : List (String × String)) (cnt : Nat) : List Session :=
  st.sessions.map (fun s =>
    if s.session_id == sid && s.is_active then
      { s with current_menu := menu, session_data := dat
               invalid_count := cnt, last_activity := st.now }
    else s)

/-- Modelled from the spec: the engine terminating an active session
at a terminal action or on an unrecoverable error (section 4.1 step 5:
is_active = false, ended_at = now); the FastAPI engine is not in the
repository. -/
def engineEndSession (st : Store) (sid : String) : List Session :=
  st.sessions.map (fun s =>
    if s.session_id == sid && s.is_active then
      { s with is_active := false, ended_at := some st.now
               last_activity := st.now }
    else s)

/-- handleEndSession of Sessions.js (lines 145-174): the matching row
gets is_active = false and ended_at = now; last_activity untouched. -/
def adminEndSession (st : Store) (sid : String) : List Session :=
  st.sessions.map (fun s =>
    if s.session_id == sid then
      { s with is_active := false, ended_at := some st.now }
    else s)

/-- One store operation. tick advances the database clock. -/
inductive Step : Store → Store → Prop where
  | tick (st : Store) (k : Nat) : Step st { st with now := st.now + k }
  | create (st : Store) (sid : String) (uid : Nat) (svc : String) :
      Step st { st with sessions := createSession st sid uid svc }
  | turn (st : Store) (sid menu : String) (dat : List (String × String))
      (cnt : Nat) :
      Step st { st with sessions := turnUpdate st sid menu dat cnt }
  | engineEnd (st : Store) (sid : String) :
      Step st { st with sessions := engineEndSession st sid }
  | adminEnd (st : Store) (sid : String) :
      Step st { st with sessions := adminEndSession st sid }
  | reap (st : Store) (timeout : Int) :
      Step st { st with sessions := (end_inactive_sessions st.now timeout st.sessions).1 }

/-- Reachable store states. -/
inductive Reachable : Store → Prop where
  | init : Reachable initStore
  | step {st st' : Store} : Reachable st → Step st st' → Reachable st'

/-- Store invariant: session ids are unique, ended_at is set exactly on
terminated sessions, and timestamps never run ahead of the clock. -/
def StoreInv (st : Store) : Prop :=
  (st.sessions.map (fun s => s.session_id)).Nodup
  ∧ ∀ s ∈ st.sessions,
      (s.ended_at ≠ none ↔ s.is_active = false) ∧ s.last_activity ≤ st.now

lemma map_sessions_nodup {l : List Session} (g : Session → Session)
    (hid : ∀ s, (g s).session_id = s.session_id)
    (hnd : (l.map (fun s => s.session_id)).Nodup) :
    ((l.map g).map (fun s => s.session_id)).Nodup := by
  rw [List.map_map]
  have hfun : ((fun s => s.session_id) ∘ g) = (fun s : Session => s.session_id) := by
    funext s
    exact hid s
  rw [hfun]
  exact hnd

lemma turnUpdate_id (st : Store) (sid menu : String)
    (dat : List (String × String)) (cnt : Nat) (s : Session) :
    ((fun s =>
      if s.session_id == sid && s.is_active then
        { s with current_menu := menu, session_data := dat
                 invalid_count := cnt, last_activity := st.now }
      else s) s).session_id = s.session_id := by
  dsimp only
  split <;> rfl

lemma engineEnd_id (st : Store) (sid : String) (s : Session) :
    ((fun s =>
      if s.session_id == sid && s.is_active then
        { s with is_active := false, ended_at := some st.now
                 last_activity := st.now }
      else s) s).session_id = s.session_id := by
  dsimp only
  split <;> rfl

lemma adminEnd_id (st : Store) (sid : String) (s : Session) :
    ((fun s =>
      if s.session_id == sid then
        { s with is_active := false, ended_at := some st.now }
      else s) s).session_id = s.session_id := by
  dsimp only
  split <;> rfl

lemma sweepRow_id (now timeout : Int) (s : Session) :
    (sweepRow now timeout s).session_id = s.session_id := by
  rw [sweepRow]
  split <;> rfl

lemma storeInv_init : StoreInv initStore := by
  refine ⟨by simp [initStore], ?_⟩
  intro s hs
  simp [initStore] at hs

lemma storeInv_step {st st' : Store} (hinv : StoreInv st) (h : Step st st') :
    StoreInv st' := by
  obtain ⟨hnd, hses⟩ := hinv
  cases h with
  | tick k =>
      refine ⟨hnd, fun s hs => ⟨(hses s hs).1, ?_⟩⟩
      have := (hses s hs).2
      dsimp only
      omega
  | create sid uid svc =>
      by_cases hdup : st.sessions.any (fun s => s.session_id == sid) = true
      · rw [show ({ st with sessions := createSession st sid uid svc } : Store)
            = { st with sessions := st.sessions } from by
              rw [createSession, if_pos hdup]]
        exact ⟨hnd, hses⟩
      · constructor
        · dsimp only
          rw [createSession, if_neg hdup, List.map_append]
          rw [List.nodup_append]
          refine ⟨hnd, by simp, ?_⟩
          intro x hx
          simp only [List.mem_map] at hx
          obtain ⟨u, hu, hux⟩ := hx
          simp only [List.map_cons, List.map_nil, List.mem_singleton]
          intro hxe
          apply hdup
          rw [List.any_eq_true]
          exact ⟨u, hu, by rw [beq_iff_eq, hux, hxe]⟩
        · dsimp only
          rw [createSession, if_neg hdup]
          intro s hs
          rcases List.mem_append.1 hs with hl | hr
          · exact hses s hl
          · simp only [List.mem_singleton] at hr
            subst hr
            simp
  | turn sid menu dat cnt =>
      constructor
      · exact map_sessions_nodup _ (turnUpdate_id st sid menu dat cnt) hnd
      · intro s hs
        simp only [turnUpdate, List.mem_map] at hs
        obtain ⟨u, hu, hus⟩ := hs
        subst hus
        dsimp only
        split
        · exact ⟨(hses u hu).1, le_refl _⟩
        · exact hses u hu
  | engineEnd sid =>
      constructor
      · exact map_sessions_nodup _ (engineEnd_id st sid) hnd
      · intro s hs
        simp only [engineEndSession, List.mem_map] at hs
        obtain ⟨u, hu, hus⟩ := hs
        subst hus
        dsimp only
        split
        · simp
        · exact hses u hu
  | adminEnd sid =>
      constructor
      · exact map_sessions_nodup _ (adminEnd_id st sid) hnd
      · intro s hs
        simp only [adminEndSession, List.mem_map] at hs
        obtain ⟨u, hu, hus⟩ := hs
        subst hus
        dsimp only
        split
        · exact ⟨by simp, (hses u hu).2⟩
        · exact hses u hu
  | reap timeout =>
      rw [show ({ st with sessions := (end_inactive_sessions st.now timeout st.sessions).1 } : Store)
          = { st with sessions := st.sessions.map (sweepRow st.now timeout) } from by
            rw [end_inactive_eq]]
      constructor
      · exact map_sessions_nodup _ (sweepRow_id st.now timeout) hnd
      · intro s hs
        simp only [List.mem_map] at hs
        obtain ⟨u, hu, hus⟩ := hs
        subst hus
        rw [sweepRow]
        split
        · exact ⟨by simp [endRow], (hses u hu).2⟩
        · exact hses u hu

lemma storeInv_reachable {st : Store} (h : Reachable st) : StoreInv st := by
  induction h with
  | init => exact storeInv_init
  | step _ hstep ih => exact storeInv_step ih hstep

lemma same_id_eq {l : List Session}
    (hnd : (l.map (fun s => s.session_id)).Nodup)
    {s t : Session} (hs : s ∈ l) (ht : t ∈ l)
    (hid : t.session_id = s.session_id) : t = s :=
  List.inj_on_of_nodup_map hnd ht hs hid

lemma mono_map_case {st : Store} (hinv : StoreInv st) (g : Session → Session)
    (hid : ∀ s, (g s).session_id = s.session_id)
    (hla : ∀ s ∈ st.sessions, s.last_activity ≤ (g s).last_activity) :
    ∀ s ∈ st.sessions, ∀ t ∈ st.sessions.map g,
      t.session_id = s.session_id → s.last_activity ≤ t.last_activity := by
  intro s hs t ht hidq
  obtain ⟨u, hu, hut⟩ := List.mem_map.1 ht
  subst hut
  have heq : u = s :=
    same_id_eq hinv.1 hs hu (by rw [← hid u]; exact hidq)
  subst heq
  exact hla u hu

/-- C5: at every reachable store state no two session records share a
session_id, and a create against an already-present session_id is
resolved by the UNIQUE constraint into keeping the stored winner
rather than inserting a second record. -/
theorem session_ids_globally_unique (st : Store) (h : Reachable st) :
    (st.sessions.map (fun s => s.session_id)).Nodup
    ∧ ∀ sid uid svc, (∃ s ∈ st.sessions, s.session_id = sid) →
        createSession st sid uid svc = st.sessions := by
  refine ⟨(storeInv_reachable h).1, ?_⟩
  rintro sid uid svc ⟨s, hsl, hsid⟩
  have hany : st.sessions.any (fun s => s.session_id == sid) = true := by
    rw [List.any_eq_true]
    exact ⟨s, hsl, by rw [beq_iff_eq]; exact hsid⟩
  rw [createSession, if_pos hany]

/-- C6: at every reachable store state, ended_at is set on a session
exactly when the session has been explicitly terminated
(is_active = false); every terminating operation sets both fields
together and no operation sets ended_at on a session left active. -/
theorem ended_at_iff_explicitly_terminated (st : Store) (h : Reachable st) :
    ∀ s ∈ st.sessions, (s.ended_at ≠ none ↔ s.is_active = false) :=
  fun s hs => ((storeInv_reachable h).2 s hs).1

/-- C9: across every store operation (engine turn, engine or admin
termination, reaper sweep, clock tick, create), the persisted
last_activity of a session never decreases. -/
theorem last_activity_monotone (st st' : Store) (hr : Reachable st)
    (h : Step st st') :
    ∀ s ∈ st.sessions, ∀ t ∈ st'.sessions,
      t.session_id = s.session_id → s.last_activity ≤ t.last_activity := by
  have hinv := storeInv_reachable hr
  cases h with
  | tick k =>
      intro s hs t ht hid
      dsimp only at ht
      have heq : t = s := same_id_eq hinv.1 hs ht hid
      subst heq
      exact le_refl _
  | create sid uid svc =>
      intro s hs t ht hid
      dsimp only at ht
      rw [createSession] at ht
      by_cases hdup : st.sessions.any (fun s => s.session_id == sid) = true
      · rw [if_pos hdup] at ht
        have heq : t = s := same_id_eq hinv.1 hs ht hid
        subst heq
        exact le_refl _
      · rw [if_neg hdup] at ht
        rcases List.mem_append.1 ht with htl | htr
        · have heq : t = s := same_id_eq hinv.1 hs htl hid
          subst heq
          exact le_refl _
        · simp only [List.mem_singleton] at htr
          subst htr
          exfalso
          apply hdup
          rw [List.any_eq_true]
          exact ⟨s, hs, by rw [beq_iff_eq]; exact hid.symm⟩
  | turn sid menu dat cnt =>
      refine mono_map_case hinv _ (turnUpdate_id st sid menu dat cnt) ?_
      intro u hu
      dsimp only
      split
      · exact (hinv.2 u hu).2
      · exact le_refl _
  | engineEnd sid =>
      refine mono_map_case hinv _ (engineEnd_id st sid) ?_
      intro u hu
      dsimp only
      split
      · exact (hinv.2 u hu).2
      · exact le_refl _
  | adminEnd sid =>
      refine mono_map_case hinv _ (adminEnd_id st sid) ?_
      intro u hu
      dsimp only
      split
      · exact le_refl _
      · exact le_refl _
  | reap timeout =>
      intro s hs t ht hid
      dsimp only at ht
      rw [end_inactive_eq] at ht
      refine mono_map_case hinv (sweepRow st.now timeout)
        (sweepRow_id st.now timeout) ?_ s hs t ht hid
      intro u _
      rw [sweepRow]
      split
      · exact le_refl _
      · exact le_refl _

/-- The single session of the demo store below. -/
def sessOne : Session :=
  { session_id := "sess_1", user_id := 1, service_code := "*123#"
    current_menu := "main", session_data := [], invalid_count := 0
    started_at := 0, last_activity := 0, ended_at := none, is_active := true }

/-- A store holding one freshly created session. -/
def storeOne : Store := { sessions := [sessOne], now := 0 }

lemma storeOne_reachable : Reachable storeOne :=
  Reachable.step Reachable.init (Step.create initStore "sess_1" 1 "*123#")

theorem session_ids_globally_unique_witness :
    (storeOne.sessions.map (fun s => s.session_id)).Nodup
    ∧ createSession storeOne "sess_1" 2 "SRV-A" = storeOne.sessions := by
  have h := session_ids_globally_unique storeOne storeOne_reachable
  exact ⟨h.1, h.2 "sess_1" 2 "SRV-A" ⟨sessOne, by simp [storeOne], rfl⟩⟩

theorem ended_at_iff_explicitly_terminated_witness :
    sessOne.ended_at ≠ none ↔ sessOne.is_active = false :=
  ended_at_iff_explicitly_terminated storeOne storeOne_reachable sessOne
    (by simp [storeOne])

/-- The session of the demo store after the engine ends it. -/
def sessOneEnded : Session :=
  { sessOne with is_active := false, ended_at := some 0, last_activity := 0 }

theorem last_activity_monotone_witness :
    sessOne.last_activity ≤ sessOneEnded.last_activity :=
  last_activity_monotone storeOne
    { storeOne with sessions := engineEndSession storeOne "sess_1" }
    storeOne_reachable (Step.engineEnd storeOne "sess_1")
    sessOne (by simp [storeOne]) sessOneEnded (by decide) rfl

/-! ## Session Engine

Modelled from the spec: the FastAPI engine (api/) is not in the
repository, so handleInteraction (spec section 4.1) is modelled from
the specification text.  Collaborator behavior for one call (store
lookup results, store timeouts, action resolver outcome, an
uncovered internal fault) is made an explicit environment value, so
the model is a total function of its inputs. -/

/-- A service definition as the engine sees it: menu graph plus the
known terminal action identifiers. -/
structure ServiceDef where
  code : String
  menu : MenuStructure
  actions : List String
  is_active : Bool
deriving Repr

/-- Engine configuration: the invalid-input retry limit (default 3). -/
structure EngineConfig where
  retryLimit : Nat
deriving Repr

/-- The default configuration of the spec. -/
def defaultConfig : EngineConfig := { retryLimit := 3 }

/-- The gateway request fields. -/
structure Request where
  sessionId : String
  phoneNumber : String
  serviceCode : String
  rawText : String
deriving Repr

/-- Outcome of the external Action Resolver. -/
inductive ActionOutcome where
  | success (text : String)
  | failure (err : String)
deriving Repr

/-- Modelled from the spec: everything external the call observes.
stored is the session store lookup for the request session id;
getTimeouts and writeTimeouts count consecutive store timeouts the
store would produce on the read and the write (the engine retries
once, spec section 5); unexpectedFault injects an internal fault not
covered by a dedicated handler. -/
structure Env where
  service : Option ServiceDef
  stored : Option Session
  getTimeouts : Nat
  writeTimeouts : Nat
  action : ActionOutcome
  unexpectedFault : Bool
  now : Int
deriving Repr

/-- One interaction log entry (ussd_logs row, fields the engine
fills). -/
structure LogEntry where
  input : String
  response : String
  menu_level : String
  is_error : Bool
  error_message : Option String
deriving Repr

/-- Result of one call: gateway response text, the session record as
persisted after the call (none when no session exists), and the log
entry emitted for the turn. -/
structure TurnResult where
  response : String
  stored : Option Session
  log : LogEntry
deriving Repr

/-- A continuing response: plain text prefixed CON. -/
def conResp (body : String) : String := "CON " ++ body

/-- A terminating response: plain text prefixed END. -/
def endResp (body : String) : String := "END " ++ body

/-- Split a character list into its star-delimited segments. -/
def splitSegs : List Char → List (List Char)
  | [] => [[]]
  | c :: cs =>
      if c = '*' then [] :: splitSegs cs
      else
        match splitSegs cs with
        | [] => [[c]]
        | seg :: segs => (c :: seg) :: segs

/-- The newest input token: the last star-delimited segment of the
accumulated text (spec section 4.1 step 4). -/
def lastToken (rawText : String) : String :=
  String.mk (((splitSegs rawText.data).getLast?).getD [])

/-- Render a node as title plus numbered options. -/
def renderNode (n : MenuNode) : String :=
  n.title ++ "\n"
    ++ String.intercalate "\n" (n.options.map (fun o => o.code ++ ". " ++ o.text))

/-- Exact-code option match (spec section 4.1 step 5). -/
def findOpt (n : MenuNode) (tok : String) : Option MOption :=
  n.options.find? (fun o => o.code == tok)

/-- Error hint prepended when re-rendering after an invalid input. -/
def invalidHint : String := "Invalid choice. Try again.\n"

def msgGeneric : String := "An error occurred. Please try again later."

def msgTransient : String := "Service temporarily unavailable. Please try again."

def msgApology : String := "Service unavailable."

def msgExpired : String := "Your session has expired. Please dial again."

def msgTooManyAttempts : String := "Too many invalid inputs. Session closed."

def msgActionFailed : String := "The operation could not be completed."

/-- Build the log entry of a turn. -/
def mkLog (req : Request) (resp lvl : String) (err : Bool)
    (msg : Option String) : LogEntry :=
  { input := req.rawText, response := resp, menu_level := lvl
    is_error := err, error_message := msg }

/-- Persist the intended result through the store (spec section 5): a
write timing out is retried once; two timeouts fail the interaction
closed with a transient END and an error-flagged log, leaving the
store as it was. -/
def persistWrite (env : Env) (req : Request) (lvl : String)
    (intended : TurnResult) : TurnResult :=
  if env.writeTimeouts ≤ 1 then intended
  else
    { response := endResp msgTransient, stored := env.stored
      log := mkLog req (endResp msgTransient) lvl true (some "store timeout") }

/-- The fresh session the engine creates for an unseen session id,
positioned at the root node main. -/
def freshSession (env : Env) (req : Request) : Session :=
  { session_id := req.sessionId, user_id := 0
    service_code := req.serviceCode, current_menu := "main"
    session_data := [], invalid_count := 0, started_at := env.now
    last_activity := env.now, ended_at := none, is_active := true }

/-- No-match handling (spec section 4.1 step 5): increment the
invalid-input counter; within the retry limit re-render the node with
an error hint as CON, beyond it terminate the session with
is_error=true. -/
def invalidTurn (cfg : EngineConfig) (env : Env) (req : Request)
    (s : Session) (node : MenuNode) : TurnResult :=
  if s.invalid_count + 1 ≤ cfg.retryLimit then
    persistWrite env req s.current_menu
      { response := conResp (invalidHint ++ renderNode node)
        stored := some { s with invalid_count := s.invalid_count + 1
                                last_activity := env.now }
        log := mkLog req (conResp (invalidHint ++ renderNode node))
          s.current_menu false none }
  else
    persistWrite env req s.current_menu
      { response := endResp msgTooManyAttempts
        stored := some { s with invalid_count := s.invalid_count + 1
                                is_active := false, ended_at := some env.now
                                last_activity := env.now }
        log := mkLog req (endResp msgTooManyAttempts) s.current_menu true
          (some "invalid input limit reached") }

/-- Matched-option handling (spec section 4.1 step 5): navigate when
next is a node, invoke the resolver and end the session when next is a
known action, degrade to a generic internal fault otherwise. -/
def matchTurn (env : Env) (req : Request) (sd : ServiceDef) (s : Session)
    (opt : MOption) : TurnResult :=
  match lookupNode sd.menu opt.next with
  | some nextNode =>
      persistWrite env req opt.next
        { response := conResp (renderNode nextNode)
          stored := some { s with current_menu := opt.next, invalid_count := 0
                                  last_activity := env.now }
          log := mkLog req (conResp (renderNode nextNode)) opt.next false none }
  | none =>
      if sd.actions.contains opt.next then
        match env.action with
        | ActionOutcome.success t =>
            persistWrite env req s.current_menu
              { response := endResp t
                stored := some { s with invalid_count := 0, is_active := false
                                        ended_at := some env.now
                                        last_activity := env.now }
                log := mkLog req (endResp t) s.current_menu false none }
        | ActionOutcome.failure e =>
            persistWrite env req s.current_menu
              { response := endResp msgActionFailed
                stored := some { s with invalid_count := 0, is_active := false
                                        ended_at := some env.now
                                        last_activity := env.now }
                log := mkLog req (endResp msgActionFailed) s.current_menu true
                  (some e) }
      else
        { response := endResp msgGeneric, stored := env.stored
          log := mkLog req (endResp msgGeneric) s.current_menu true
            (some "unknown next target") }

/-- One turn on a resolved active session. isNew marks a session the
engine just created for an unseen id; with an empty first input it
renders the root node. -/
def nodeTurn (cfg : EngineConfig) (env : Env) (req : Request)
    (sd : ServiceDef) (s : Session) (isNew : Bool) : TurnResult :=
  match lookupNode sd.menu s.current_menu with
  | none =>
      { response := endResp msgGeneric, stored := env.stored
        log := mkLog req (endResp msgGeneric) s.current_menu true
          (some "current node missing from menu") }
  | some node =>
      if isNew && (lastToken req.rawText == "") then
        persistWrite env req s.current_menu
          { response := conResp (renderNode node)
            stored := some s
            log := mkLog req (conResp (renderNode node)) s.current_menu
              false none }
      else
        match findOpt node (lastToken req.rawText) with
        | none => invalidTurn cfg env req s node
        | some opt => matchTurn env req sd s opt

/-- Modelled from the spec: handleInteraction (section 4.1).  Resolves
service and session, applies the input, and degrades every fault to a
well-formed CON or END text. -/
def handleInteraction (cfg : EngineConfig) (env : Env) (req : Request) :
    TurnResult :=
  if env.unexpectedFault then
    { response := endResp msgGeneric, stored := env.stored
      log := mkLog req (endResp msgGeneric) "" true
        (some "unhandled internal fault") }
  else if 1 < env.getTimeouts then
    { response := endResp msgTransient, stored := env.stored
      log := mkLog req (endResp msgTransient) "" true (some "store timeout") }
  else
    match env.service with
    | none =>
        { response := endResp msgApology, stored := env.stored
          log := mkLog req (endResp msgApology) "" true
            (some "service not found") }
    | some sd =>
        if !sd.is_active then
          { response := endResp msgApology, stored := env.stored
            log := mkLog req (endResp msgApology) "" true
              (some "service inactive") }
        else
          match env.stored with
          | some s =>
              if s.is_active then nodeTurn cfg env req sd s false
              else
                { response := endResp msgExpired, stored := env.stored
                  log := mkLog req (endResp msgExpired) s.current_menu true
                    (some "session expired") }
          | none => nodeTurn cfg env req sd (freshSession env req) true

/-- A response is well formed when it is plain text prefixed CON or
END. -/
def wellFormedResponse (r : String) : Bool :=
  "CON ".data.isPrefixOf r.data || "END ".data.isPrefixOf r.data

lemma wf_conResp (b : String) : wellFormedResponse (conResp b) = true := by
  rw [wellFormedResponse, conResp, String.data_append]
  simp [List.isPrefixOf_iff_prefix]

lemma wf_endResp (b : String) : wellFormedResponse (endResp b) = true := by
  rw [wellFormedResponse, endResp, String.data_append]
  simp [List.isPrefixOf_iff_prefix]

lemma wf_persistWrite (env : Env) (req : Request) (lvl : String)
    (tr : TurnResult) (h : wellFormedResponse tr.response = true) :
    wellFormedResponse (persistWrite env req lvl tr).response = true := by
  rw [persistWrite]
  split
  · exact h
  · exact wf_endResp _

lemma wf_invalidTurn (cfg : EngineConfig) (env : Env) (req : Request)
    (s : Session) (node : MenuNode) :
    wellFormedResponse (invalidTurn cfg env req s node).response = true := by
  rw [invalidTurn]
  split
  · exact wf_persistWrite _ _ _ _ (wf_conResp _)
  · exact wf_persistWrite _ _ _ _ (wf_endResp _)

lemma wf_matchTurn (env : Env) (req : Request) (sd : ServiceDef)
    (s : Session) (opt : MOption) :
    wellFormedResponse (matchTurn env req sd s opt).response = true := by
  rw [matchTurn]
  split
  · exact wf_persistWrite _ _ _ _ (wf_conResp _)
  · split
    · split
      · exact wf_persistWrite _ _ _ _ (wf_endResp _)
      · exact wf_persistWrite _ _ _ _ (wf_endResp _)
    · exact wf_endResp _

lemma wf_nodeTurn (cfg : EngineConfig) (env : Env) (req : Request)
    (sd : ServiceDef) (s : Session) (isNew : Bool) :
    wellFormedResponse (nodeTurn cfg env req sd s isNew).response = true := by
  rw [nodeTurn]
  split
  · exact wf_endResp _
  · split
    · exact wf_persistWrite _ _ _ _ (wf_conResp _)
    · split
      · exact wf_invalidTurn _ _ _ _ _
      · exact wf_matchTurn _ _ _ _ _

/-- C3: handleInteraction is a total function of its inputs and every
branch answers a plain text prefixed CON or END; an internal fault not
covered by a dedicated handler degrades to the generic END response
with an error-flagged log entry. -/
theorem engine_never_raises (cfg : EngineConfig) (env : Env) (req : Request) :
    wellFormedResponse (handleInteraction cfg env req).response = true
    ∧ (env.unexpectedFault = true →
        (handleInteraction cfg env req).response = endResp msgGeneric
        ∧ (handleInteraction cfg env req).log.is_error = true) := by
  constructor
  · rw [handleInteraction]
    split
    · exact wf_endResp _
    · split
      · exact wf_endResp _
      · split
        · exact wf_endResp _
        · split
          · exact wf_endResp _
          · split
            · split
              · exact wf_nodeTurn _ _ _ _ _ _
              · exact wf_endResp _
            · exact wf_nodeTurn _ _ _ _ _ _
  · intro hfault
    rw [handleInteraction, if_pos hfault]
    exact ⟨rfl, rfl⟩

/-- An environment suffering an unhandled internal fault. -/
def faultEnv : Env :=
  { service := none, stored := none, getTimeouts := 0, writeTimeouts := 0
    action := ActionOutcome.success "", unexpectedFault := true, now := 0 }

/-- A first-contact request on the seed service. -/
def demoReq : Request :=
  { sessionId := "sess_1", phoneNumber := "+123456789"
    serviceCode := "*123#", rawText := "" }

theorem engine_never_raises_witness :
    wellFormedResponse (handleInteraction defaultConfig faultEnv demoReq).response
        = true
    ∧ (handleInteraction defaultConfig faultEnv demoReq).response
        = endResp msgGeneric
    ∧ (handleInteraction defaultConfig faultEnv demoReq).log.is_error = true := by
  have h := engine_never_raises defaultConfig faultEnv demoReq
  exact ⟨h.1, (h.2 rfl).1, (h.2 rfl).2⟩

lemma persistWrite_ok (env : Env) (req : Request) (lvl : String)
    (tr : TurnResult) (hw : env.writeTimeouts ≤ 1) :
    persistWrite env req lvl tr = tr := by
  rw [persistWrite, if_pos hw]

lemma handleInteraction_active (cfg : EngineConfig) (env : Env) (req : Request)
    (sd : ServiceDef) (s : Session)
    (hf : env.unexpectedFault = false) (hg : env.getTimeouts ≤ 1)
    (hs : env.service = some sd) (ha : sd.is_active = true)
    (hst : env.stored = some s) (hact : s.is_active = true) :
    handleInteraction cfg env req = nodeTurn cfg env req sd s false := by
  rw [handleInteraction]
  rw [if_neg (by rw [hf]; exact Bool.false_ne_true)]
  rw [if_neg (by omega)]
  rw [hs]
  dsimp only
  rw [if_neg (by rw [ha]; exact Bool.false_ne_true)]
  rw [hst]
  dsimp only
  rw [if_pos hact]

lemma nodeTurn_invalid (cfg : EngineConfig) (env : Env) (req : Request)
    (sd : ServiceDef) (s : Session) (node : MenuNode)
    (hnode : lookupNode sd.menu s.current_menu = some node)
    (hmiss : findOpt node (lastToken req.rawText) = none) :
    nodeTurn cfg env req sd s false = invalidTurn cfg env req s node := by
  rw [nodeTurn, hnode]
  dsimp only
  rw [if_neg (by simp)]
  rw [hmiss]

/-- C2: on an input token matching no option code of the current node,
handleInteraction persists the incremented invalid-input counter; while
the counter stays at or below the retry limit the call answers CON
re-rendering the same node with an error hint and leaves the session
active; once it exceeds the limit the call answers END, deactivates
the session and flags the log entry as an error. -/
theorem invalid_input_counter (cfg : EngineConfig) (env : Env) (req : Request)
    (sd : ServiceDef) (s : Session) (node : MenuNode)
    (hf : env.unexpectedFault = false) (hg : env.getTimeouts ≤ 1)
    (hw : env.writeTimeouts ≤ 1) (hs : env.service = some sd)
    (ha : sd.is_active = true) (hst : env.stored = some s)
    (hact : s.is_active = true)
    (hnode : lookupNode sd.menu s.current_menu = some node)
    (hmiss : findOpt node (lastToken req.rawText) = none) :
    ((handleInteraction cfg env req).stored.map (fun t => t.invalid_count))
        = some (s.invalid_count + 1)
    ∧ (s.invalid_count + 1 ≤ cfg.retryLimit →
        (handleInteraction cfg env req).response
            = conResp (invalidHint ++ renderNode node)
        ∧ ((handleInteraction cfg env req).stored.map (fun t => t.current_menu))
            = some s.current_menu
        ∧ ((handleInteraction cfg env req).stored.map (fun t => t.is_active))
            = some true)
    ∧ (cfg.retryLimit < s.invalid_count + 1 →
        (handleInteraction cfg env req).response = endResp msgTooManyAttempts
        ∧ ((handleInteraction cfg env req).stored.map (fun t => t.is_active))
            = some false
        ∧ (handleInteraction cfg env req).log.is_error = true) := by
  rw [handleInteraction_active cfg env req sd s hf hg hs ha hst hact,
    nodeTurn_invalid cfg env req sd s node hnode hmiss, invalidTurn]
  by_cases hc : s.invalid_count + 1 ≤ cfg.retryLimit
  · rw [if_pos hc, persistWrite_ok env req _ _ hw]
    exact ⟨by simp, fun _ => ⟨rfl, by simp, by simp [hact]⟩,
      fun hgt => absurd hc (by omega)⟩
  · rw [if_neg hc, persistWrite_ok env req _ _ hw]
    exact ⟨by simp, fun hle => absurd hle hc, fun _ => ⟨rfl, by simp, rfl⟩⟩

/-- The seed main node of service *123#. -/
def demoMainNode : MenuNode :=
  { title := "Menu Principal"
    options :=
      [ { code := "1", text := "Consultation de solde", next := "balance" }
      , { code := "2", text := "Inscription aux services", next := "services" }
      , { code := "3", text := "Suivi de commande", next := "order_tracking" }
      , { code := "4", text := "Sondages", next := "survey" } ] }

/-- The seed service *123# as the engine sees it: the non-node next
targets are its terminal action identifiers. -/
def demoService : ServiceDef :=
  { code := "*123#", menu := seedMenuMain
    actions := [ "balance", "order_tracking", "survey"
               , "service_a", "service_b", "service_c" ]
    is_active := true }

/-- An active session positioned at the seed main node. -/
def demoSess : Session :=
  { session_id := "sess_1", user_id := 1, service_code := "*123#"
    current_menu := "main", session_data := [], invalid_count := 0
    started_at := 0, last_activity := 5, ended_at := none, is_active := true }

/-- A healthy environment holding demoService and demoSess. -/
def demoEnv : Env :=
  { service := some demoService, stored := some demoSess, getTimeouts := 0
    writeTimeouts := 0, action := ActionOutcome.success "ok"
    unexpectedFault := false, now := 10 }

/-- The request sending token 9, which matches no option of main. -/
def demoReq9 : Request :=
  { sessionId := "sess_1", phoneNumber := "+123456789"
    serviceCode := "*123#", rawText := "9" }

theorem invalid_input_counter_witness :
    ((handleInteraction defaultConfig demoEnv demoReq9).stored.map
        (fun t => t.invalid_count)) = some 1
    ∧ (handleInteraction defaultConfig demoEnv demoReq9).response
        = conResp (invalidHint ++ renderNode demoMainNode) := by
  have h := invalid_input_counter defaultConfig demoEnv demoReq9 demoService
    demoSess demoMainNode rfl (by decide) (by decide) rfl rfl rfl rfl
    (by rfl) (by rfl)
  exact ⟨h.1, (h.2.1 (by decide)).1⟩

/-! ## Duplicate delivery (spec section 5)

Modelled from the spec: the engine linearizes writes per session id via
the store conditional check; a re-delivery of the already-applied
(sessionId, text) pair is recognized by comparing the input against the
already-applied prior turn (or by the version conflict) and is answered
from the already-computed result, producing no second transition and no
second log entry. -/

/-- The store view relevant to duplicate detection for one session: a
version bumped on every committed transition, the last applied input,
the counts of applied transitions and emitted log entries, and the
dialog position. -/
structure DupStore where
  version : Nat
  lastInput : Option String
  applied : Nat
  logs : Nat
  menu : String
deriving DecidableEq, Repr

/-- State of one delivery: pc 0 before the read, 1 holding the version
snapshot, 2 answered. -/
structure Delivery where
  pc : Nat
  snap : Nat
deriving DecidableEq, Repr

/-- One step of a delivery of input i with session transition f: the
read records the version snapshot; the commit applies the transition
and emits the log entry only when the input is not the already-applied
prior turn and the snapshot is still current, otherwise it answers
from the already-computed result without writing. -/
def deliveryStep (f : String → String) (i : String) (st : DupStore)
    (d : Delivery) : DupStore × Delivery :=
  if d.pc = 0 then (st, { pc := 1, snap := st.version })
  else if d.pc = 1 then
    if st.lastInput = some i then (st, { d with pc := 2 })
    else if st.version = d.snap then
      ({ version := st.version + 1, lastInput := some i
         applied := st.applied + 1, logs := st.logs + 1, menu := f st.menu },
       { d with pc := 2 })
    else (st, { d with pc := 2 })
  else (st, d)

/-- Run two deliveries a and b of the same input under an interleaving
schedule: true hands the next step to a, false to b. -/
def runSched (f : String → String) (i : String) :
    List Bool → DupStore → Delivery → Delivery →
      DupStore × Delivery × Delivery
  | [], st, a, b => (st, a, b)
  | true :: r, st, a, b =>
      runSched f i r (deliveryStep f i st a).1 (deliveryStep f i st a).2 b
  | false :: r, st, a, b =>
      runSched f i r (deliveryStep f i st b).1 a (deliveryStep f i st b).2

/-- C7: under every interleaving of two concurrent deliveries of the
identical (sessionId, text) interaction on a session that has not yet
applied that turn, exactly one state transition of the session and
exactly one additional log entry happen; the losing delivery answers
from the already-computed result. -/
theorem duplicate_delivery_single_transition (f : String → String)
    (i : String) (st : DupStore) (hfresh : st.lastInput ≠ some i)
    (sched : List Bool)
    (hsched : sched ∈
      [ [true, true, false, false], [true, false, true, false]
      , [true, false, false, true], [false, true, true, false]
      , [false, true, false, true], [false, false, true, true] ]) :
    (runSched f i sched st ⟨0, 0⟩ ⟨0, 0⟩).1.applied = st.applied + 1
    ∧ (runSched f i sched st ⟨0, 0⟩ ⟨0, 0⟩).1.logs = st.logs + 1
    ∧ (runSched f i sched st ⟨0, 0⟩ ⟨0, 0⟩).1.menu = f st.menu := by
  fin_cases hsched <;>
    simp [runSched, deliveryStep, hfresh]

theorem duplicate_delivery_single_transition_witness :
    (runSched (fun _ => "services") "2" [true, false, true, false]
      ⟨0, none, 0, 0, "main"⟩ ⟨0, 0⟩ ⟨0, 0⟩).1.applied = 1
    ∧ (runSched (fun _ => "services") "2" [true, false, true, false]
        ⟨0, none, 0, 0, "main"⟩ ⟨0, 0⟩ ⟨0, 0⟩).1.logs = 1
    ∧ (runSched (fun _ => "services") "2" [true, false, true, false]
        ⟨0, none, 0, 0, "main"⟩ ⟨0, 0⟩ ⟨0, 0⟩).1.menu = "services" := by
  have h := duplicate_delivery_single_transition (fun _ => "services") "2"
    ⟨0, none, 0, 0, "main"⟩ (by simp) [true, false, true, false] (by simp)
  exact ⟨h.1, h.2.1, h.2.2⟩

end GatsUssd
